import Mathlib

/-!
Shallow embedding of the Portal do Aluno services
(src/services/offlineService.ts, src/services/annotationService.ts,
src/services/api.ts, src/constants/index.ts) together with proofs of the
specification claims.

Modelling conventions:

* AsyncStorage holds JSON-serialised values under fixed keys; for the
  record types stored here JSON serialisation round-trips, so the model
  stores the parsed value directly under each of the two keys used by the
  services (offline-document metadata and annotations).
* Timestamps (Date.now() and new Date().toISOString()) are drawn from a
  logical clock in the state; every read of the clock advances it, so
  successive reads are strictly increasing, which is how the code uses
  millisecond timestamps.  ISO-8601 strings compare like the instants
  they denote, so timestamps are modelled as naturals.
* Throwing primitives (AsyncStorage and expo FileSystem calls) are
  modelled as functions returning an Except value together with the
  updated state; fault-injection flags in the state decide whether a
  primitive throws.  The try/catch blocks of the source become matches on
  the Except value; state mutated before a throw stays mutated, as in
  JavaScript.
* The annotation record type of the source is called Annot here, and the
  add/remove/update operations addAnnot/removeAnnot/updateAnnot, purely
  to satisfy local naming conventions; each definition's doc comment
  names the source symbol it embeds.
-/

namespace Proesc

/-- Document type enumeration (src/types/index.ts, DocumentType). -/
inductive DocumentType where
  | pdf
  | docx
  | html
  | image
deriving DecidableEq

/-- String form of a document type, as interpolated into offline file
names by saveDocumentOffline. -/
def DocumentType.str : DocumentType → String
  | .pdf => "pdf"
  | .docx => "docx"
  | .html => "html"
  | .image => "image"

/-- Document category enumeration (src/types/index.ts, DocumentCategory). -/
inductive DocumentCategory where
  | historico
  | boletim
  | declaracao
  | comunicado
deriving DecidableEq

/-- Upload category enumeration (src/types/index.ts, UploadCategory). -/
inductive UploadCategory where
  | atestado
  | justificativa
  | requerimento
  | outros
deriving DecidableEq

/-- Status of an uploaded document (src/types/index.ts, DocumentStatus). -/
inductive DocumentStatus where
  | enviado
  | em_analise
  | aprovado
  | rejeitado
deriving DecidableEq

/-- A school document (src/types/index.ts, Document). -/
structure Document where
  id : String
  title : String
  type : DocumentType
  category : DocumentCategory
  url : String
  date : String
  size : String
  description : Option String := none
  pages : Option Nat := none
deriving DecidableEq

/-- Metadata record for an offline-cached document
(src/services/offlineService.ts, OfflineDocumentMeta).  savedAt is an ISO
string in the source, modelled by the logical clock value. -/
structure OfflineDocumentMeta where
  documentId : String
  title : String
  type : String
  localPath : String
  savedAt : Nat
  size : Option String := none
deriving DecidableEq

/-- Annotation type (src/services/annotationService.ts, AnnotationType). -/
inductive AnnotType where
  | highlight
  | note
deriving DecidableEq

/-- A positional annotation (src/services/annotationService.ts,
interface Annotation).  Numeric fields are JavaScript numbers used
opaquely by the service, modelled as integers; createdAt is an ISO string
modelled by the clock value. -/
structure Annot where
  id : String
  type : AnnotType
  page : Nat
  x : Int
  y : Int
  width : Option Int := none
  height : Option Int := none
  text : Option String := none
  color : String
  content : Option String := none
  createdAt : Nat
deriving DecidableEq

/-- All annotations of one document (src/services/annotationService.ts,
interface DocumentAnnotations). -/
structure DocumentAnnotations where
  documentId : String
  annotations : List Annot
  updatedAt : Nat
deriving DecidableEq

/-- Encoding tag for a file written through expo FileSystem. -/
inductive FileEnc where
  | base64
  | utf8
deriving DecidableEq

/-- Fault-injection flags: each flag makes every call to the
corresponding storage/filesystem primitive throw. -/
structure Faults where
  getItemFail : Bool
  setItemFail : Bool
  removeItemFail : Bool
  getInfoFail : Bool
  writeFileFail : Bool
  readFileFail : Bool
  deleteFail : Bool
  makeDirFail : Bool
deriving DecidableEq

/-- The fault assignment under which every primitive succeeds. -/
def noFaults : Faults :=
  { getItemFail := false
    setItemFail := false
    removeItemFail := false
    getInfoFail := false
    writeFileFail := false
    readFileFail := false
    deleteFail := false
    makeDirFail := false }

/-- State of the device as seen by the two storage services: the two
AsyncStorage slots (parsed), the file system (path, encoding, content),
whether the offline directory exists, the OfflineService instance flag
this.initialized, the logical clock, the oracle for the random id suffix
of Math.random().toString(36).substr(2, 9), and the fault flags. -/
structure SysState where
  offlineDocs : Option (List OfflineDocumentMeta)
  annStore : Option (List DocumentAnnotations)
  files : List (String × FileEnc × String)
  dirExists : Bool
  inited : Bool
  now : Nat
  randSuffix : String
  faults : Faults
deriving DecidableEq

/-- Reading Date.now() or new Date(): returns the clock and advances it. -/
def dateNow (s : SysState) : Nat × SysState :=
  (s.now, { s with now := s.now + 1 })

/-- AsyncStorage.getItem for the offline-documents key. -/
def kvGetOffline (s : SysState) :
    Except Unit (Option (List OfflineDocumentMeta)) × SysState :=
  if s.faults.getItemFail then (.error (), s) else (.ok s.offlineDocs, s)

/-- AsyncStorage.setItem for the offline-documents key. -/
def kvSetOffline (docs : List OfflineDocumentMeta) (s : SysState) :
    Except Unit Unit × SysState :=
  if s.faults.setItemFail then (.error (), s)
  else (.ok (), { s with offlineDocs := some docs })

/-- AsyncStorage.removeItem for the offline-documents key. -/
def kvRemoveOffline (s : SysState) : Except Unit Unit × SysState :=
  if s.faults.removeItemFail then (.error (), s)
  else (.ok (), { s with offlineDocs := none })

/-- AsyncStorage.getItem for the annotations key. -/
def kvGetAnn (s : SysState) :
    Except Unit (Option (List DocumentAnnotations)) × SysState :=
  if s.faults.getItemFail then (.error (), s) else (.ok s.annStore, s)

/-- AsyncStorage.setItem for the annotations key. -/
def kvSetAnn (l : List DocumentAnnotations) (s : SysState) :
    Except Unit Unit × SysState :=
  if s.faults.setItemFail then (.error (), s)
  else (.ok (), { s with annStore := some l })

/-- AsyncStorage.removeItem for the annotations key. -/
def kvRemoveAnn (s : SysState) : Except Unit Unit × SysState :=
  if s.faults.removeItemFail then (.error (), s)
  else (.ok (), { s with annStore := none })

/-- FileSystem.getInfoAsync on a file path (exposes the exists flag). -/
def fsGetInfoFile (path : String) (s : SysState) :
    Except Unit Bool × SysState :=
  if s.faults.getInfoFail then (.error (), s)
  else (.ok (s.files.find? (fun f => f.1 = path)).isSome, s)

/-- FileSystem.writeAsStringAsync: creates or replaces the file. -/
def fsWriteFile (path : String) (enc : FileEnc) (content : String)
    (s : SysState) : Except Unit Unit × SysState :=
  if s.faults.writeFileFail then (.error (), s)
  else (.ok (),
    { s with files := (path, enc, content) :: s.files.filter (fun f => f.1 ≠ path) })

/-- FileSystem.readAsStringAsync: throws when the file is absent.  The
re-encoding an expo read with the other encoding tag would perform is a
platform concern outside this repository and is modelled as a read
failure; no claim exercises a mismatched read. -/
def fsReadFile (path : String) (enc : FileEnc) (s : SysState) :
    Except Unit String × SysState :=
  if s.faults.readFileFail then (.error (), s)
  else
    match s.files.find? (fun f => f.1 = path) with
    | none => (.error (), s)
    | some f => if f.2.1 = enc then (.ok f.2.2, s) else (.error (), s)

/-- FileSystem.deleteAsync on a single file. -/
def fsDeleteFile (path : String) (s : SysState) :
    Except Unit Unit × SysState :=
  if s.faults.deleteFail then (.error (), s)
  else (.ok (), { s with files := s.files.filter (fun f => f.1 ≠ path) })

/-- FileSystem.getInfoAsync on the offline directory. -/
def fsGetInfoDir (s : SysState) : Except Unit Bool × SysState :=
  if s.faults.getInfoFail then (.error (), s) else (.ok s.dirExists, s)

/-- FileSystem.makeDirectoryAsync on the offline directory. -/
def fsMakeDir (s : SysState) : Except Unit Unit × SysState :=
  if s.faults.makeDirFail then (.error (), s)
  else (.ok (), { s with dirExists := true })

/-- The OFFLINE_DIR constant of src/services/offlineService.ts;
FileSystem.documentDirectory is modelled by a fixed root. -/
def OFFLINE_DIR : String := "file:///data/offline_docs/"

/-- FileSystem.deleteAsync on the offline directory: removes the
directory and every file inside it. -/
def fsDeleteDir (s : SysState) : Except Unit Unit × SysState :=
  if s.faults.deleteFail then (.error (), s)
  else (.ok (),
    { s with dirExists := false
             files := s.files.filter (fun f => ¬ OFFLINE_DIR.isPrefixOf f.1) })

/-! ## OfflineService (src/services/offlineService.ts) -/

/-- OfflineService.init: ensures the cache directory exists; a thrown
filesystem error propagates to the caller (no try/catch in the source). -/
def offlineInit (s : SysState) : Except Unit Unit × SysState :=
  if s.inited then (.ok (), s)
  else
    match fsGetInfoDir s with
    | (.error _, s1) => (.error (), s1)
    | (.ok dirEx, s1) =>
      if dirEx then (.ok (), { s1 with inited := true })
      else
        match fsMakeDir s1 with
        | (.error _, s2) => (.error (), s2)
        | (.ok _, s2) => (.ok (), { s2 with inited := true })

/-- OfflineService.getOfflineDocumentsList: parses the stored list,
returning the empty list when the key is absent or the read throws. -/
def getOfflineDocumentsList (s : SysState) :
    List OfflineDocumentMeta × SysState :=
  match kvGetOffline s with
  | (.ok (some docs), s1) => (docs, s1)
  | (.ok none, s1) => ([], s1)
  | (.error _, s1) => ([], s1)

/-- OfflineService.saveOfflineDocumentsList (private): writes the list,
catching and swallowing any storage error. -/
def saveOfflineDocumentsList (docs : List OfflineDocumentMeta)
    (s : SysState) : Unit × SysState :=
  match kvSetOffline docs s with
  | (.ok _, s1) => ((), s1)
  | (.error _, s1) => ((), s1)

/-- OfflineService.isDocumentOffline: true iff some metadata entry has
the given documentId. -/
def isDocumentOffline (documentId : String) (s : SysState) :
    Bool × SysState :=
  let r := getOfflineDocumentsList s
  (r.1.any (fun d => d.documentId = documentId), r.2)

/-- OfflineService.getOfflineDocumentMeta: first metadata entry with the
given documentId, or none. -/
def getOfflineDocumentMeta (documentId : String) (s : SysState) :
    Option OfflineDocumentMeta × SysState :=
  let r := getOfflineDocumentsList s
  (r.1.find? (fun d => d.documentId = documentId), r.2)

/-- File name written by saveDocumentOffline:
documentId_Date.now().documentType. -/
def offlineFileName (doc : Document) (t : Nat) : String :=
  doc.id ++ "_" ++ toString t ++ "." ++ doc.type.str

/-- OfflineService.saveDocumentOffline: inits, writes the content to a
fresh path, then replaces any metadata entry for the same documentId;
the try/catch returns false only when init or the file write throws,
because the metadata read and the metadata write both catch their own
errors (a failed read is treated as an empty list, a failed write is
logged and dropped). -/
def saveDocumentOffline (doc : Document) (content : String)
    (contentType : FileEnc) (s : SysState) : Bool × SysState :=
  match offlineInit s with
  | (.error _, s1) => (false, s1)
  | (.ok _, s1) =>
    let r1 := dateNow s1
    let localPath := OFFLINE_DIR ++ offlineFileName doc r1.1
    match fsWriteFile localPath contentType content r1.2 with
    | (.error _, s2) => (false, s2)
    | (.ok _, s2) =>
      let r2 := getOfflineDocumentsList s2
      let filteredDocs := r2.1.filter (fun d => d.documentId ≠ doc.id)
      let r3 := dateNow r2.2
      let meta : OfflineDocumentMeta :=
        { documentId := doc.id
          title := doc.title
          type := doc.type.str
          localPath := localPath
          savedAt := r3.1
          size := some doc.size }
      let r4 := saveOfflineDocumentsList (filteredDocs ++ [meta]) r3.2
      (true, r4.2)

/-- Tail of OfflineService.removeOfflineDocument: filter the metadata
list and persist it (the source inlines this after the file deletion). -/
def removeOfflineDocumentTail (documentId : String) (s : SysState) :
    Bool × SysState :=
  let r := getOfflineDocumentsList s
  let filteredDocs := r.1.filter (fun d => d.documentId ≠ documentId)
  let r1 := saveOfflineDocumentsList filteredDocs r.2
  (true, r1.2)

/-- OfflineService.removeOfflineDocument: deletes the backing file when
the metadata names one that exists, then drops every metadata entry for
the documentId; returns false only when getInfo or delete throws. -/
def removeOfflineDocument (documentId : String) (s : SysState) :
    Bool × SysState :=
  let r := getOfflineDocumentMeta documentId s
  match r.1 with
  | some meta =>
    match fsGetInfoFile meta.localPath r.2 with
    | (.error _, s1) => (false, s1)
    | (.ok fileEx, s1) =>
      if fileEx then
        match fsDeleteFile meta.localPath s1 with
        | (.error _, s2) => (false, s2)
        | (.ok _, s2) => removeOfflineDocumentTail documentId s2
      else removeOfflineDocumentTail documentId s1
  | none => removeOfflineDocumentTail documentId r.2

/-- OfflineService.getOfflineDocumentContent: reads the cached content;
when the backing file is gone it removes the stale metadata entry and
returns none (self-healing read). -/
def getOfflineDocumentContent (documentId : String) (encoding : FileEnc)
    (s : SysState) : Option String × SysState :=
  let r := getOfflineDocumentMeta documentId s
  match r.1 with
  | none => (none, r.2)
  | some meta =>
    match fsGetInfoFile meta.localPath r.2 with
    | (.error _, s1) => (none, s1)
    | (.ok fileEx, s1) =>
      if fileEx then
        match fsReadFile meta.localPath encoding s1 with
        | (.error _, s2) => (none, s2)
        | (.ok c, s2) => (some c, s2)
      else
        let r1 := removeOfflineDocument documentId s1
        (none, r1.2)

/-- Tail of OfflineService.clearAllOfflineDocuments: clear the metadata
key and report success. -/
def clearAllOfflineDocumentsTail (s : SysState) : Bool × SysState :=
  match kvRemoveOffline s with
  | (.error _, s1) => (false, s1)
  | (.ok _, s1) => (true, s1)

/-- OfflineService.clearAllOfflineDocuments: deletes and recreates the
offline directory, then clears the metadata key. -/
def clearAllOfflineDocuments (s : SysState) : Bool × SysState :=
  match offlineInit s with
  | (.error _, s1) => (false, s1)
  | (.ok _, s1) =>
    match fsGetInfoDir s1 with
    | (.error _, s2) => (false, s2)
    | (.ok dirEx, s2) =>
      if dirEx then
        match fsDeleteDir s2 with
        | (.error _, s3) => (false, s3)
        | (.ok _, s3) =>
          match fsMakeDir s3 with
          | (.error _, s4) => (false, s4)
          | (.ok _, s4) => clearAllOfflineDocumentsTail s4
      else clearAllOfflineDocumentsTail s2

/-! ## AnnotationService (src/services/annotationService.ts) -/

/-- AnnotationService.getAllDocumentAnnotations (private): parses the
stored collection, returning the empty list when the key is absent or
the read throws. -/
def getAllDocumentAnnotations (s : SysState) :
    List DocumentAnnotations × SysState :=
  match kvGetAnn s with
  | (.ok (some l), s1) => (l, s1)
  | (.ok none, s1) => ([], s1)
  | (.error _, s1) => ([], s1)

/-- AnnotationService.getAnnotations: the annotation list of one
document, empty when the document has no entry. -/
def getAnnotations (documentId : String) (s : SysState) :
    List Annot × SysState :=
  let r := getAllDocumentAnnotations s
  (((r.1.find? (fun d => d.documentId = documentId)).map
      (fun d => d.annotations)).getD [], r.2)

/-- AnnotationService.saveAnnotations: full replace of one document's
annotation list inside the whole persisted collection; false when the
write throws. -/
def saveAnnotations (documentId : String) (annots : List Annot)
    (s : SysState) : Bool × SysState :=
  let r := getAllDocumentAnnotations s
  let r1 := dateNow r.2
  let docAnns : DocumentAnnotations :=
    { documentId := documentId, annotations := annots, updatedAt := r1.1 }
  let i := r.1.findIdx (fun d => d.documentId = documentId)
  let newAll := if i < r.1.length then r.1.set i docAnns else r.1 ++ [docAnns]
  match kvSetAnn newAll r1.2 with
  | (.error _, s2) => (false, s2)
  | (.ok _, s2) => (true, s2)

/-- Input of AnnotationService.addAnnotation:
Omit of Annotation without id and createdAt. -/
structure AnnotInput where
  type : AnnotType
  page : Nat
  x : Int
  y : Int
  width : Option Int := none
  height : Option Int := none
  text : Option String := none
  color : String
  content : Option String := none
deriving DecidableEq

/-- The generated annotation id:
ann_ followed by Date.now() and the random suffix. -/
def makeAnnotId (t : Nat) (suffix : String) : String :=
  "ann_" ++ toString t ++ "_" ++ suffix

/-- AnnotationService.addAnnotation: generates id and createdAt, appends
and persists; the boolean result of saveAnnotations is ignored, and as
nothing inside the try block throws, the catch arm returning null is
unreachable. -/
def addAnnot (documentId : String) (annot : AnnotInput) (s : SysState) :
    Option Annot × SysState :=
  let r := getAnnotations documentId s
  let r1 := dateNow r.2
  let r2 := dateNow r1.2
  let newAnnot : Annot :=
    { id := makeAnnotId r1.1 r1.2.randSuffix
      type := annot.type
      page := annot.page
      x := annot.x
      y := annot.y
      width := annot.width
      height := annot.height
      text := annot.text
      color := annot.color
      content := annot.content
      createdAt := r2.1 }
  let r3 := saveAnnotations documentId (r.1 ++ [newAnnot]) r2.2
  (some newAnnot, r3.2)

/-- AnnotationService.removeAnnotation: filters out the id, false when
nothing was filtered; the result of the persist is ignored. -/
def removeAnnot (documentId annotId : String) (s : SysState) :
    Bool × SysState :=
  let r := getAnnotations documentId s
  let filtered := r.1.filter (fun a => a.id ≠ annotId)
  if filtered.length = r.1.length then (false, r.2)
  else
    let r1 := saveAnnotations documentId filtered r.2
    (true, r1.2)

/-- A Partial of the annotation record: one optional slot per field, a
present slot overwriting that field in the object spread.  For fields
that are themselves optional in the record, a present slot carries the
new optional value, as an explicit undefined does in TypeScript. -/
structure AnnotPatch where
  id : Option String := none
  type : Option AnnotType := none
  page : Option Nat := none
  x : Option Int := none
  y : Option Int := none
  width : Option (Option Int) := none
  height : Option (Option Int) := none
  text : Option (Option String) := none
  color : Option String := none
  content : Option (Option String) := none
  createdAt : Option Nat := none
deriving DecidableEq

/-- The object spread of updateAnnotation: fields present in the patch
replace the old values, all other fields are kept. -/
def applySpread (a : Annot) (p : AnnotPatch) : Annot :=
  { id := p.id.getD a.id
    type := p.type.getD a.type
    page := p.page.getD a.page
    x := p.x.getD a.x
    y := p.y.getD a.y
    width := p.width.getD a.width
    height := p.height.getD a.height
    text := p.text.getD a.text
    color := p.color.getD a.color
    content := p.content.getD a.content
    createdAt := p.createdAt.getD a.createdAt }

/-- AnnotationService.updateAnnotation: merges the patch into the first
annotation with the id and persists; false when the id is absent; the
result of the persist is ignored. -/
def updateAnnot (documentId annotId : String) (updates : AnnotPatch)
    (s : SysState) : Bool × SysState :=
  let r := getAnnotations documentId s
  let i := r.1.findIdx (fun a => a.id = annotId)
  if h : i < r.1.length then
    let merged := applySpread (r.1.get ⟨i, h⟩) updates
    let r1 := saveAnnotations documentId (r.1.set i merged) r.2
    (true, r1.2)
  else (false, r.2)

/-- AnnotationService.deleteDocumentAnnotations: drops the whole entry
of one document from the persisted collection. -/
def deleteDocumentAnnotations (documentId : String) (s : SysState) :
    Bool × SysState :=
  let r := getAllDocumentAnnotations s
  let filtered := r.1.filter (fun d => d.documentId ≠ documentId)
  match kvSetAnn filtered r.2 with
  | (.error _, s1) => (false, s1)
  | (.ok _, s1) => (true, s1)

/-- AnnotationService.clearAllAnnotations: removes the whole key. -/
def clearAllAnnotations (s : SysState) : Bool × SysState :=
  match kvRemoveAnn s with
  | (.error _, s1) => (false, s1)
  | (.ok _, s1) => (true, s1)

/-! ## Mock API (src/services/api.ts, src/constants/index.ts) -/

/-- User record (src/types/index.ts, User). -/
structure User where
  id : String
  name : String
  matricula : String
  email : Option String := none
  turma : Option String := none
  serie : Option String := none
deriving DecidableEq

/-- MOCK_CREDENTIALS (src/constants/index.ts). -/
structure Credentials where
  matricula : String
  senha : String
deriving DecidableEq

/-- The hardcoded mock credentials. -/
def MOCK_CREDENTIALS : Credentials :=
  { matricula := "123456", senha := "aluno123" }

/-- The fixed mock user (src/constants/index.ts, MOCK_USER). -/
def MOCK_USER : User :=
  { id := "1"
    name := "João da Silva"
    matricula := "123456"
    email := some "joao.silva@escola.com"
    turma := some "9º Ano A"
    serie := some "Ensino Fundamental" }

/-- LoginResponse (src/types/index.ts). -/
structure LoginResponse where
  success : Bool
  user : Option User := none
  token : Option String := none
  error : Option String := none
deriving DecidableEq

/-- api.login: succeeds exactly on the hardcoded credential pair; the
network delay only costs time and is not modelled for this pure
comparison. -/
def login (matricula senha : String) : LoginResponse :=
  if matricula = MOCK_CREDENTIALS.matricula ∧ senha = MOCK_CREDENTIALS.senha
  then
    { success := true
      user := some MOCK_USER
      token := some "mock-jwt-token-123456" }
  else
    { success := false, error := some "Matrícula ou senha incorretos" }

/-- An uploaded document (src/types/index.ts, UploadedDocument).  The
source stores id as Date.now().toString() and uploadDate as the date
part of the ISO string; number-to-string conversion is injective, so
both are modelled by the underlying clock values. -/
structure UploadedDocument where
  id : Nat
  title : String
  category : UploadCategory
  status : DocumentStatus
  uploadDate : Nat
  fileUri : String
  fileName : String
  fileSize : Option String := none
deriving DecidableEq

/-- State of the mock API module: the in-memory uploadedDocuments array,
the fire-and-forget timers scheduled by uploadDocument (document id and
the instant the 5000 ms delay elapses), and the clock.  Each simulated
network delay advances the clock by its duration. -/
structure ApiState where
  uploadedDocuments : List UploadedDocument
  pendingTimers : List (Nat × Nat)
  now : Nat
deriving DecidableEq

/-- api.uploadDocument: after the 1500 ms delay, prepends a record with
status enviado and schedules the status flip for 5000 ms later. -/
def uploadDocument (title : String) (category : UploadCategory)
    (fileUri fileName : String) (fileSize : Option String)
    (s : ApiState) : (Bool × Option UploadedDocument) × ApiState :=
  let s0 : ApiState := { s with now := s.now + 1500 }
  let newDocument : UploadedDocument :=
    { id := s0.now
      title := title
      category := category
      status := .enviado
      uploadDate := s0.now
      fileUri := fileUri
      fileName := fileName
      fileSize := fileSize }
  ((true, some newDocument),
    { s0 with
      uploadedDocuments := newDocument :: s0.uploadedDocuments
      pendingTimers := (newDocument.id, s0.now + 5000) :: s0.pendingTimers })

/-- The setTimeout callback scheduled by uploadDocument: flips the
status of the first document with the captured id to em_analise, a
no-op when the document is gone. -/
def uploadTimerCallback (documentId : Nat)
    (docs : List UploadedDocument) : List UploadedDocument :=
  let i := docs.findIdx (fun d => d.id = documentId)
  if h : i < docs.length then
    docs.set i { docs.get ⟨i, h⟩ with status := .em_analise }
  else docs

/-- Firing the pending timer of one uploaded document. -/
def fireUploadTimer (documentId : Nat) (s : ApiState) : ApiState :=
  { s with
    uploadedDocuments := uploadTimerCallback documentId s.uploadedDocuments
    pendingTimers := s.pendingTimers.filter (fun t => t.1 ≠ documentId) }

/-- api.getUploadedDocuments: returns the in-memory array after the
500 ms delay. -/
def getUploadedDocuments (s : ApiState) :
    (Bool × List UploadedDocument) × ApiState :=
  ((true, s.uploadedDocuments), { s with now := s.now + 500 })

/-- The status argument of api.updateDocumentStatus is restricted to the
two administrative outcomes. -/
inductive AdminStatus where
  | aprovado
  | rejeitado
deriving DecidableEq

/-- Conversion of an administrative outcome to a document status. -/
def AdminStatus.toStatus : AdminStatus → DocumentStatus
  | .aprovado => .aprovado
  | .rejeitado => .rejeitado

/-- api.updateDocumentStatus: sets the status of the first document with
the id, false when absent. -/
def updateDocumentStatus (documentId : Nat) (status : AdminStatus)
    (s : ApiState) : Bool × ApiState :=
  let s0 : ApiState := { s with now := s.now + 500 }
  let i := s0.uploadedDocuments.findIdx (fun d => d.id = documentId)
  if h : i < s0.uploadedDocuments.length then
    (true,
      { s0 with uploadedDocuments :=
          (s0.uploadedDocuments.set i
            { s0.uploadedDocuments.get ⟨i, h⟩ with
              status := status.toStatus }) })
  else (false, s0)

/-- api.resetUploadedDocuments: clears the in-memory array. -/
def resetUploadedDocuments (s : ApiState) : ApiState :=
  { s with uploadedDocuments := [] }

/-- One call against the mock API module, for stating what may happen
between an upload and the firing of its status timer.  login and
getDocuments read no uploaded-document state and only cost their delay. -/
inductive ApiOp where
  | loginOp (matricula senha : String)
  | getDocumentsOp (category : Option DocumentCategory)
  | getUploadedDocumentsOp
  | uploadDocumentOp (title : String) (category : UploadCategory)
      (fileUri fileName : String) (fileSize : Option String)
  | updateDocumentStatusOp (documentId : Nat) (status : AdminStatus)
  | fireUploadTimerOp (documentId : Nat)
  | resetOp
deriving DecidableEq

/-- Effect of one mock-API call on the module state. -/
def applyApiOp : ApiOp → ApiState → ApiState
  | .loginOp _ _, s => { s with now := s.now + 1000 }
  | .getDocumentsOp _, s => { s with now := s.now + 500 }
  | .getUploadedDocumentsOp, s => (getUploadedDocuments s).2
  | .uploadDocumentOp t c u n z, s => (uploadDocument t c u n z s).2
  | .updateDocumentStatusOp d st, s => (updateDocumentStatus d st s).2
  | .fireUploadTimerOp d, s => fireUploadTimer d s
  | .resetOp, s => resetUploadedDocuments s

/-- Effect of a sequence of mock-API calls, applied left to right. -/
def applyApiOps (ops : List ApiOp) (s : ApiState) : ApiState :=
  ops.foldl (fun t op => applyApiOp op t) s

/-! ## Derived views of the state -/

/-- The metadata list as getOfflineDocumentsList parses it from the
store when the read succeeds. -/
def offlineList (s : SysState) : List OfflineDocumentMeta :=
  s.offlineDocs.getD []

/-- The annotation list of one document as getAnnotations parses it
from the store when the read succeeds. -/
def annsOf (documentId : String)
    (store : Option (List DocumentAnnotations)) : List Annot :=
  (((store.getD []).find? (fun d => d.documentId = documentId)).map
      (fun d => d.annotations)).getD []

/-- The path saveDocumentOffline writes to when entered at state s. -/
def savePath (doc : Document) (s : SysState) : String :=
  OFFLINE_DIR ++ offlineFileName doc s.now

/-- The metadata entry saveDocumentOffline appends when entered at
state s. -/
def saveMeta (doc : Document) (s : SysState) : OfflineDocumentMeta :=
  { documentId := doc.id
    title := doc.title
    type := doc.type.str
    localPath := savePath doc s
    savedAt := s.now + 1
    size := some doc.size }

/-! ## Concrete fixtures for witnesses and counterexamples -/

/-- A concrete device state: empty stores, clock at 100, no faults. -/
def baseState : SysState :=
  { offlineDocs := none
    annStore := none
    files := []
    dirExists := false
    inited := false
    now := 100
    randSuffix := "k2p9q4r8m"
    faults := noFaults }

/-- The concrete document of the spec scenario. -/
def sampleDoc : Document :=
  { id := "3"
    title := "Declaração de Matrícula"
    type := .pdf
    category := .declaracao
    url := "declaracao_matricula.pdf"
    date := "2024-05-20"
    size := "169 KB" }

/-- The concrete annotation input of the spec scenario. -/
def sampleAnnotInput : AnnotInput :=
  { type := .note
    page := 1
    x := 50
    y := 50
    color := "#fbbf24"
    content := some "Ver com coordenação" }

/-- A stale metadata entry whose backing file does not exist. -/
def staleMeta : OfflineDocumentMeta :=
  { documentId := "3"
    title := "Declaração de Matrícula"
    type := "pdf"
    localPath := OFFLINE_DIR ++ "3_50.pdf"
    savedAt := 50
    size := some "169 KB" }

/-- A device state holding the stale metadata entry and no files. -/
def staleState : SysState :=
  { baseState with offlineDocs := some [staleMeta] }

/-! ## The annotation collection update performed by saveAnnotations -/

/-- The update saveAnnotations performs on the whole persisted
collection: replace the entry of the document when one exists, append a
fresh entry otherwise. -/
def upsertAnns (documentId : String) (annots : List Annot) (t : Nat)
    (l : List DocumentAnnotations) : List DocumentAnnotations :=
  let docAnns : DocumentAnnotations :=
    { documentId := documentId, annotations := annots, updatedAt := t }
  let i := l.findIdx (fun d => d.documentId = documentId)
  if i < l.length then l.set i docAnns else l ++ [docAnns]

/-- The annotation object addAnnotation constructs when entered at
state s. -/
def newAnnotOf (a : AnnotInput) (s : SysState) : Annot :=
  { id := makeAnnotId s.now s.randSuffix
    type := a.type
    page := a.page
    x := a.x
    y := a.y
    width := a.width
    height := a.height
    text := a.text
    color := a.color
    content := a.content
    createdAt := s.now + 1 }

/-! ## The object spread of updateAnnotation -/

/-- Per-field behavior of the object spread: a named slot overwrites,
an absent slot keeps the prior value. -/
def slotRespects {β : Type} (oldv newv : β) (slot : Option β) : Prop :=
  (slot = none → newv = oldv) ∧ (∀ v, slot = some v → newv = v)

/-- The merge respects the patch: every field named in the patch takes
the patched value, every other field keeps its prior value. -/
def patchRespects (old merged : Annot) (p : AnnotPatch) : Prop :=
  slotRespects old.id merged.id p.id ∧
  slotRespects old.type merged.type p.type ∧
  slotRespects old.page merged.page p.page ∧
  slotRespects old.x merged.x p.x ∧
  slotRespects old.y merged.y p.y ∧
  slotRespects old.width merged.width p.width ∧
  slotRespects old.height merged.height p.height ∧
  slotRespects old.text merged.text p.text ∧
  slotRespects old.color merged.color p.color ∧
  slotRespects old.content merged.content p.content ∧
  slotRespects old.createdAt merged.createdAt p.createdAt

/-- A concrete existing annotation used for the update witness. -/
def sampleAnnot : Annot :=
  { id := "ann_1"
    type := .note
    page := 1
    x := 50
    y := 50
    color := "#fbbf24"
    content := some "Ver com coordenação"
    createdAt := 10 }

/-- A device state holding one annotation of document 3. -/
def annState : SysState :=
  { baseState with
    annStore := some [{ documentId := "3", annotations := [sampleAnnot]
                        updatedAt := 20 }] }

/-- A concrete partial patch naming only color and content. -/
def samplePatch : AnnotPatch :=
  { color := some "#ff0000", content := some (some "Revisado") }

/-! ## Uniqueness of metadata entries per documentId -/

/-- The metadata entries recorded for one documentId. -/
def entriesFor (id : String) (l : List OfflineDocumentMeta) :
    List OfflineDocumentMeta :=
  l.filter (fun d => d.documentId = id)

/-- At most one metadata entry per documentId. -/
def OfflineUniq (l : List OfflineDocumentMeta) : Prop :=
  ∀ id, (entriesFor id l).length ≤ 1

/-! ## Mock-API invariants for the uploaded-documents list -/

/-- The status getUploadedDocuments reports for one document. -/
def statusOf (documentId : Nat) (s : ApiState) : Option DocumentStatus :=
  (s.uploadedDocuments.find? (fun d => d.id = documentId)).map
    (fun d => d.status)

/-- Every recorded document id is a past clock reading. -/
def IdsBounded (s : ApiState) : Prop :=
  ∀ d ∈ s.uploadedDocuments, d.id ≤ s.now

/-- The calls that can change (or destroy) the status entry of one
uploaded document: an administrative status update for it, the firing of
its own upload timer, and the test-only reset. -/
def TouchesDoc (documentId : Nat) : ApiOp → Prop
  | .updateDocumentStatusOp d _ => d = documentId
  | .fireUploadTimerOp d => d = documentId
  | .resetOp => True
  | _ => False

/-- The record uploadDocument creates when entered at state s. -/
def newUploadOf (title : String) (category : UploadCategory)
    (fileUri fileName : String) (fileSize : Option String) (s : ApiState) :
    UploadedDocument :=
  { id := s.now + 1500
    title := title
    category := category
    status := .enviado
    uploadDate := s.now + 1500
    fileUri := fileUri
    fileName := fileName
    fileSize := fileSize }

/-- The empty mock-API state. -/
def apiStart : ApiState :=
  { uploadedDocuments := [], pendingTimers := [], now := 0 }

/-! ## Behavior of the primitives under selected faults -/

theorem kvGetOffline_ok (s : SysState) (h : s.faults.getItemFail = false) :
    kvGetOffline s = (.ok s.offlineDocs, s) := by
  simp [kvGetOffline, h]

theorem kvSetOffline_ok (docs : List OfflineDocumentMeta) (s : SysState)
    (h : s.faults.setItemFail = false) :
    kvSetOffline docs s = (.ok (), { s with offlineDocs := some docs }) := by
  simp [kvSetOffline, h]

theorem kvGetAnn_ok (s : SysState) (h : s.faults.getItemFail = false) :
    kvGetAnn s = (.ok s.annStore, s) := by
  simp [kvGetAnn, h]

theorem kvSetAnn_ok (l : List DocumentAnnotations) (s : SysState)
    (h : s.faults.setItemFail = false) :
    kvSetAnn l s = (.ok (), { s with annStore := some l }) := by
  simp [kvSetAnn, h]

theorem kvSetAnn_fail (l : List DocumentAnnotations) (s : SysState)
    (h : s.faults.setItemFail = true) :
    kvSetAnn l s = (.error (), s) := by
  simp [kvSetAnn, h]

theorem getOfflineDocumentsList_ok (s : SysState)
    (h : s.faults.getItemFail = false) :
    getOfflineDocumentsList s = (offlineList s, s) := by
  unfold getOfflineDocumentsList
  rw [kvGetOffline_ok s h]
  cases hd : s.offlineDocs <;> simp [offlineList, hd]

theorem getOfflineDocumentsList_state (s : SysState) :
    (getOfflineDocumentsList s).2 = s := by
  unfold getOfflineDocumentsList kvGetOffline
  by_cases h : s.faults.getItemFail <;> cases hd : s.offlineDocs <;> simp [h, hd]

theorem getAllDocumentAnnotations_ok (s : SysState)
    (h : s.faults.getItemFail = false) :
    getAllDocumentAnnotations s = (s.annStore.getD [], s) := by
  unfold getAllDocumentAnnotations
  rw [kvGetAnn_ok s h]
  cases s.annStore <;> simp

theorem getAllDocumentAnnotations_state (s : SysState) :
    (getAllDocumentAnnotations s).2 = s := by
  unfold getAllDocumentAnnotations kvGetAnn
  by_cases h : s.faults.getItemFail <;> cases hd : s.annStore <;> simp [h, hd]

theorem getAnnotations_ok (documentId : String) (s : SysState)
    (h : s.faults.getItemFail = false) :
    getAnnotations documentId s = (annsOf documentId s.annStore, s) := by
  unfold getAnnotations
  rw [getAllDocumentAnnotations_ok s h]
  simp [annsOf]

theorem getAnnotations_state (documentId : String) (s : SysState) :
    (getAnnotations documentId s).2 = s := by
  unfold getAnnotations
  rw [getAllDocumentAnnotations_state]

theorem getOfflineDocumentMeta_ok (documentId : String) (s : SysState)
    (h : s.faults.getItemFail = false) :
    getOfflineDocumentMeta documentId s =
      ((offlineList s).find? (fun d => d.documentId = documentId), s) := by
  unfold getOfflineDocumentMeta
  rw [getOfflineDocumentsList_ok s h]

theorem isDocumentOffline_ok (documentId : String) (s : SysState)
    (h : s.faults.getItemFail = false) :
    isDocumentOffline documentId s =
      ((offlineList s).any (fun d => d.documentId = documentId), s) := by
  unfold isDocumentOffline
  rw [getOfflineDocumentsList_ok s h]

theorem offlineInit_ok (s : SysState) (hinfo : s.faults.getInfoFail = false)
    (hmk : s.faults.makeDirFail = false) :
    offlineInit s =
      (.ok (), { s with dirExists := s.dirExists || !s.inited, inited := true }) := by
  obtain ⟨od, an, fl, de, ini, n, rs, fa⟩ := s
  simp only [SysState.faults] at hinfo hmk
  unfold offlineInit fsGetInfoDir fsMakeDir
  cases ini <;> cases de <;> simp [hinfo, hmk]

/-- Equation for saveDocumentOffline on a fault-free run: returns true
and produces the fully explicit post-state. -/
theorem saveDocumentOffline_ok (doc : Document) (content : String)
    (ct : FileEnc) (s : SysState) (h : s.faults = noFaults) :
    saveDocumentOffline doc content ct s =
      (true,
       { offlineDocs := some (((offlineList s).filter
             (fun d => d.documentId ≠ doc.id)) ++ [saveMeta doc s])
         annStore := s.annStore
         files := (savePath doc s, ct, content) ::
           s.files.filter (fun f => f.1 ≠ savePath doc s)
         dirExists := s.dirExists || !s.inited
         inited := true
         now := s.now + 2
         randSuffix := s.randSuffix
         faults := s.faults }) := by
  obtain ⟨od, an, fl, de, ini, n, rs, fa⟩ := s
  simp only [SysState.faults] at h
  subst h
  unfold saveDocumentOffline offlineInit fsGetInfoDir fsMakeDir dateNow
    fsWriteFile getOfflineDocumentsList kvGetOffline saveOfflineDocumentsList
    kvSetOffline
  cases ini <;> cases de <;> cases od <;>
    simp [noFaults, offlineList, savePath, saveMeta]

/-! ## List facts about the metadata filters -/

theorem find?_filter_ne_append (l : List OfflineDocumentMeta)
    (m : OfflineDocumentMeta) (id : String) (hm : m.documentId = id) :
    ((l.filter (fun d => d.documentId ≠ id)) ++ [m]).find?
      (fun d => d.documentId = id) = some m := by
  induction l with
  | nil =>
    rw [List.filter_nil, List.nil_append, List.find?_cons_of_pos]
    simp [hm]
  | cons a t ih =>
    by_cases ha : a.documentId = id
    · rw [List.filter_cons_of_neg (by simp [ha])]
      exact ih
    · rw [List.filter_cons_of_pos (by simp [ha]), List.cons_append,
        List.find?_cons_of_neg _ (by simp [ha])]
      exact ih

theorem find?_filter_ne (l : List OfflineDocumentMeta) (id : String) :
    (l.filter (fun d => d.documentId ≠ id)).find?
      (fun d => d.documentId = id) = none := by
  rw [List.find?_eq_none]
  intro x hx
  rw [List.mem_filter] at hx
  simpa using hx.2

theorem any_filter_ne (l : List OfflineDocumentMeta) (id : String) :
    (l.filter (fun d => d.documentId ≠ id)).any
      (fun d => d.documentId = id) = false := by
  rw [List.any_eq_false]
  intro x hx
  rw [List.mem_filter] at hx
  simpa using hx.2

theorem find?_files_filter_ne (l : List (String × FileEnc × String))
    (p : String) :
    (l.filter (fun f => f.1 ≠ p)).find? (fun f => f.1 = p) = none := by
  rw [List.find?_eq_none]
  intro x hx
  rw [List.mem_filter] at hx
  simpa using hx.2

/-! ## Projection views of the read operations -/

theorem getOfflineDocumentMeta_fst (documentId : String) (s : SysState)
    (h : s.faults.getItemFail = false) :
    (getOfflineDocumentMeta documentId s).1 =
      (offlineList s).find? (fun d => d.documentId = documentId) := by
  rw [getOfflineDocumentMeta_ok _ _ h]

theorem getOfflineDocumentMeta_state (documentId : String) (s : SysState) :
    (getOfflineDocumentMeta documentId s).2 = s := by
  simp [getOfflineDocumentMeta, getOfflineDocumentsList_state]

theorem isDocumentOffline_fst (documentId : String) (s : SysState)
    (h : s.faults.getItemFail = false) :
    (isDocumentOffline documentId s).1 =
      (offlineList s).any (fun d => d.documentId = documentId) := by
  rw [isDocumentOffline_ok _ _ h]

/-- Effect of removeOfflineDocument on a fault-free run: true is
returned, the metadata list is filtered, faults are untouched, a
never-cached id leaves the filesystem untouched, and the file referenced
by a found metadata entry is afterwards absent. -/
theorem removeOfflineDocument_spec (documentId : String) (s : SysState)
    (h : s.faults = noFaults) :
    (removeOfflineDocument documentId s).1 = true ∧
    ((removeOfflineDocument documentId s).2).offlineDocs =
      some ((offlineList s).filter (fun d => d.documentId ≠ documentId)) ∧
    ((removeOfflineDocument documentId s).2).faults = s.faults ∧
    (((offlineList s).find? (fun d => d.documentId = documentId) = none) →
      ((removeOfflineDocument documentId s).2).files = s.files) ∧
    (∀ m, (offlineList s).find? (fun d => d.documentId = documentId) = some m →
      ((removeOfflineDocument documentId s).2).files.find?
        (fun f => f.1 = m.localPath) = none) := by
  have hgi : s.faults.getItemFail = false := by rw [h]; rfl
  have hsi : s.faults.setItemFail = false := by rw [h]; rfl
  have hinfo : s.faults.getInfoFail = false := by rw [h]; rfl
  have hdel : s.faults.deleteFail = false := by rw [h]; rfl
  rcases hfind : (s.offlineDocs.getD []).find?
      (fun d => d.documentId = documentId) with _ | m
  · simp only [removeOfflineDocument, getOfflineDocumentMeta_ok, hgi,
      offlineList, hfind, removeOfflineDocumentTail,
      getOfflineDocumentsList_ok, saveOfflineDocumentsList, kvSetOffline_ok,
      hsi]
    exact ⟨trivial, trivial, trivial, fun _ => trivial,
      fun m hmm => Option.noConfusion hmm⟩
  · rcases hfl : s.files.find? (fun f => f.1 = m.localPath) with _ | f
    · simp only [removeOfflineDocument, getOfflineDocumentMeta_ok, hgi,
        offlineList, hfind, fsGetInfoFile, hinfo, if_false,
        Bool.false_eq_true, hfl, Option.isSome_none, Option.isSome_some,
        removeOfflineDocumentTail, getOfflineDocumentsList_ok,
        saveOfflineDocumentsList, kvSetOffline_ok, hsi]
      refine ⟨trivial, trivial, trivial, fun _ => trivial, fun m' hmm => ?_⟩
      have hmm' : m = m' := Option.some.inj hmm
      subst hmm'
      exact hfl
    · simp only [removeOfflineDocument, getOfflineDocumentMeta_ok, hgi,
        offlineList, hfind, fsGetInfoFile, hinfo, if_false,
        Bool.false_eq_true, hfl, Option.isSome_some, if_true, fsDeleteFile,
        hdel, removeOfflineDocumentTail, getOfflineDocumentsList_ok,
        saveOfflineDocumentsList, kvSetOffline_ok, hsi]
      refine ⟨trivial, trivial, trivial,
        fun hc => Option.noConfusion hc, fun m' hmm => ?_⟩
      have hmm' : m = m' := Option.some.inj hmm
      subst hmm'
      exact find?_files_filter_ne _ _

/-! ## Claims -/

/-- C7: login(matricula, senha) returns success with the fixed mock user
and token mock-jwt-token-123456 exactly when matricula is 123456 and
senha is aluno123, and for every other pair returns failure with the
fixed Portuguese error message. -/
theorem c7_login (matricula senha : String) :
    login matricula senha =
      (if matricula = "123456" ∧ senha = "aluno123" then
        { success := true
          user := some MOCK_USER
          token := some "mock-jwt-token-123456" }
      else
        { success := false
          error := some "Matrícula ou senha incorretos" }) := by
  simp [login, MOCK_CREDENTIALS]

/-- C3 counterexample: with only AsyncStorage.setItem failing,
saveDocumentOffline returns true although the metadata write to the
persistent store failed, the stored list staying unchanged — refuting
the part of C3 stating that it does not return true when the metadata
write fails. -/
theorem c3_counterexample :
    (saveDocumentOffline sampleDoc "JVBERi0x" .base64
        { baseState with
          offlineDocs := some []
          faults := { noFaults with setItemFail := true } }).1 = true ∧
    ((saveDocumentOffline sampleDoc "JVBERi0x" .base64
        { baseState with
          offlineDocs := some []
          faults := { noFaults with setItemFail := true } }).2).offlineDocs
      = some [] := by
  constructor <;> rfl

/-- C3 (amended): saveDocumentOffline never surfaces an exception to
its caller; it returns false when the first-use directory check throws
or when the content file write throws. But a failing metadata-list
read is swallowed inside getOfflineDocumentsList (treated as an empty
list, so the rewritten store holds only the new entry) and a failing
metadata write is swallowed inside saveOfflineDocumentsList (store
left unchanged); in both cases saveDocumentOffline still returns
true. -/
theorem c3_amended :
    (∀ (s : SysState) (doc : Document) (content : String) (ct : FileEnc),
        s.inited = false → s.faults.getInfoFail = true →
        (saveDocumentOffline doc content ct s).1 = false) ∧
    (∀ (s : SysState) (doc : Document) (content : String) (ct : FileEnc),
        s.faults.getInfoFail = false → s.faults.makeDirFail = false →
        s.faults.writeFileFail = true →
        (saveDocumentOffline doc content ct s).1 = false) ∧
    (∀ (s : SysState) (doc : Document) (content : String) (ct : FileEnc),
        s.faults = { noFaults with getItemFail := true } →
        (saveDocumentOffline doc content ct s).1 = true ∧
        ((saveDocumentOffline doc content ct s).2).offlineDocs
          = some [saveMeta doc s]) ∧
    (∀ (s : SysState) (doc : Document) (content : String) (ct : FileEnc),
        s.faults = { noFaults with setItemFail := true } →
        (saveDocumentOffline doc content ct s).1 = true ∧
        ((saveDocumentOffline doc content ct s).2).offlineDocs
          = s.offlineDocs) := by
  refine ⟨?_, ?_, ?_, ?_⟩
  · intro s doc content ct hinit hinfo
    unfold saveDocumentOffline offlineInit fsGetInfoDir
    simp [hinit, hinfo]
  · intro s doc content ct hinfo hmk hwf
    unfold saveDocumentOffline
    rw [offlineInit_ok s hinfo hmk]
    simp [dateNow, fsWriteFile, hwf]
  · intro s doc content ct h
    obtain ⟨od, an, fl, de, ini, n, rs, fa⟩ := s
    simp only [SysState.faults] at h
    subst h
    unfold saveDocumentOffline offlineInit fsGetInfoDir fsMakeDir dateNow
      fsWriteFile getOfflineDocumentsList kvGetOffline
      saveOfflineDocumentsList kvSetOffline
    cases ini <;> cases de <;> cases od <;>
      simp [noFaults, saveMeta, savePath]
  · intro s doc content ct h
    obtain ⟨od, an, fl, de, ini, n, rs, fa⟩ := s
    simp only [SysState.faults] at h
    subst h
    unfold saveDocumentOffline offlineInit fsGetInfoDir fsMakeDir dateNow
      fsWriteFile getOfflineDocumentsList kvGetOffline
      saveOfflineDocumentsList kvSetOffline
    cases ini <;> cases de <;> cases od <;> simp [noFaults]

/-- Witness for the amended C3, at concrete faulty states: init throw,
write throw, swallowed metadata-read failure, swallowed metadata-write
failure. -/
theorem c3_amended_witness :
    (saveDocumentOffline sampleDoc "JVBERi0x" .base64
        { baseState with
          faults := { noFaults with getInfoFail := true } }).1 = false ∧
    (saveDocumentOffline sampleDoc "JVBERi0x" .base64
        { baseState with
          faults := { noFaults with writeFileFail := true } }).1 = false ∧
    (saveDocumentOffline sampleDoc "JVBERi0x" .base64
        { baseState with
          faults := { noFaults with getItemFail := true } }).1 = true ∧
    (saveDocumentOffline sampleDoc "JVBERi0x" .base64
        { baseState with
          faults := { noFaults with setItemFail := true } }).1 = true :=
  ⟨c3_amended.1 _ sampleDoc "JVBERi0x" .base64 rfl rfl,
   c3_amended.2.1 _ sampleDoc "JVBERi0x" .base64 rfl rfl rfl,
   (c3_amended.2.2.1 _ sampleDoc "JVBERi0x" .base64 rfl).1,
   (c3_amended.2.2.2 _ sampleDoc "JVBERi0x" .base64 rfl).1⟩

/-- C10: when the persistent write merely fails (setItem faulted, reads
healthy) and the generated id is fresh, addAnnotation still returns the
non-null constructed annotation, and that annotation is absent from a
subsequent getAnnotations — it was never persisted. -/
theorem c10_add_ignores_persist_failure (s : SysState)
    (documentId : String) (a : AnnotInput)
    (hset : s.faults.setItemFail = true)
    (hget : s.faults.getItemFail = false)
    (hfresh : ∀ x ∈ annsOf documentId s.annStore,
        x.id ≠ makeAnnotId s.now s.randSuffix) :
    (addAnnot documentId a s).1 = some (newAnnotOf a s) ∧
      newAnnotOf a s
        ∉ (getAnnotations documentId ((addAnnot documentId a s).2)).1 := by
  obtain ⟨od, an, fl, de, ini, n, rs, fa⟩ := s
  simp only [SysState.faults] at hset hget
  simp only at hfresh
  cases an with
  | none =>
    exact ⟨by simp [addAnnot, getAnnotations, getAllDocumentAnnotations,
        kvGetAnn, dateNow, saveAnnotations, kvSetAnn, hset, hget,
        newAnnotOf],
      by simp [addAnnot, getAnnotations, getAllDocumentAnnotations,
        kvGetAnn, dateNow, saveAnnotations, kvSetAnn, hset, hget]⟩
  | some store =>
    refine ⟨by simp [addAnnot, getAnnotations, getAllDocumentAnnotations,
        kvGetAnn, dateNow, saveAnnotations, kvSetAnn, hset, hget,
        newAnnotOf], ?_⟩
    simp [addAnnot, getAnnotations, getAllDocumentAnnotations,
      kvGetAnn, dateNow, saveAnnotations, kvSetAnn, hset, hget,
      newAnnotOf]
    intro hmem
    exact hfresh _ (by simpa [annsOf] using hmem) rfl

/-- Witness for C10 at a concrete faulty state. -/
theorem c10_witness :
    (addAnnot "3" sampleAnnotInput
        { baseState with
          faults := { noFaults with setItemFail := true } }).1 =
      some (newAnnotOf sampleAnnotInput
        { baseState with
          faults := { noFaults with setItemFail := true } }) ∧
    newAnnotOf sampleAnnotInput
        { baseState with
          faults := { noFaults with setItemFail := true } }
      ∉ (getAnnotations "3"
          ((addAnnot "3" sampleAnnotInput
            { baseState with
              faults := { noFaults with setItemFail := true } }).2)).1 :=
  c10_add_ignores_persist_failure _ "3" sampleAnnotInput rfl rfl
    (by decide)

/-- C1: a fault-free saveDocumentOffline with base64 content followed by
getOfflineDocumentContent with base64 encoding returns exactly the
content that was saved, for every document, every prior state and every
content string including the empty one. -/
theorem c1_roundtrip (s : SysState) (doc : Document) (content : String)
    (h : s.faults = noFaults) :
    (getOfflineDocumentContent doc.id .base64
        ((saveDocumentOffline doc content .base64 s).2)).1 = some content := by
  rw [saveDocumentOffline_ok doc content .base64 s h]
  rw [h]
  simp only [getOfflineDocumentContent]
  rw [getOfflineDocumentMeta_ok _ _ (by rfl)]
  simp only [offlineList, Option.getD_some]
  rw [find?_filter_ne_append (s.offlineDocs.getD []) (saveMeta doc s) doc.id rfl]
  simp [fsGetInfoFile, fsReadFile, noFaults, List.find?, saveMeta]

/-- Witness for C1: the concrete spec scenario round-trips. -/
theorem c1_witness :
    (getOfflineDocumentContent sampleDoc.id .base64
        ((saveDocumentOffline sampleDoc "JVBERi0x" .base64 baseState).2)).1
      = some "JVBERi0x" :=
  c1_roundtrip baseState sampleDoc "JVBERi0x" rfl

/-- C8: removeOfflineDocument returns true for every documentId,
including never-cached ids, absent storage faults; afterwards no
metadata entry for the id remains, the backing file referenced by a
pre-existing metadata entry is gone, and for a never-cached id the
filesystem is untouched. -/
theorem c8_remove_noop (s : SysState) (documentId : String)
    (h : s.faults = noFaults) :
    (removeOfflineDocument documentId s).1 = true ∧
    (getOfflineDocumentMeta documentId
        ((removeOfflineDocument documentId s).2)).1 = none ∧
    (∀ m, (getOfflineDocumentMeta documentId s).1 = some m →
      ((removeOfflineDocument documentId s).2).files.find?
        (fun f => f.1 = m.localPath) = none) ∧
    ((getOfflineDocumentMeta documentId s).1 = none →
      ((removeOfflineDocument documentId s).2).files = s.files) := by
  obtain ⟨h1, h2, h3, h4, h5⟩ := removeOfflineDocument_spec documentId s h
  have hgi : s.faults.getItemFail = false := by rw [h]; rfl
  have hgi2 :
      ((removeOfflineDocument documentId s).2).faults.getItemFail = false := by
    rw [h3, h]; rfl
  refine ⟨h1, ?_, ?_, ?_⟩
  · rw [getOfflineDocumentMeta_fst _ _ hgi2]
    simp only [offlineList, h2, Option.getD_some]
    exact find?_filter_ne _ _
  · intro m hm
    rw [getOfflineDocumentMeta_fst _ _ hgi] at hm
    simp only [offlineList] at hm
    exact h5 m hm
  · intro hm
    rw [getOfflineDocumentMeta_fst _ _ hgi] at hm
    simp only [offlineList] at hm
    exact h4 hm

/-- Witness for C8 on a concrete never-cached id. -/
theorem c8_witness :
    (removeOfflineDocument "99" baseState).1 = true ∧
    (getOfflineDocumentMeta "99"
        ((removeOfflineDocument "99" baseState).2)).1 = none ∧
    ((removeOfflineDocument "99" baseState).2).files = baseState.files := by
  obtain ⟨h1, h2, _, h4⟩ := c8_remove_noop baseState "99" rfl
  exact ⟨h1, h2, h4 rfl⟩

/-- C4: when a metadata entry exists but its backing file is absent, the
self-healing read getOfflineDocumentContent deletes the stale metadata
entry and returns null, and a subsequent isDocumentOffline on the
resulting state is false (fault-free run). -/
theorem c4_self_healing (s : SysState) (documentId : String)
    (m : OfflineDocumentMeta) (h : s.faults = noFaults)
    (hm : (getOfflineDocumentMeta documentId s).1 = some m)
    (hfile : s.files.find? (fun f => f.1 = m.localPath) = none) :
    (getOfflineDocumentContent documentId .base64 s).1 = none ∧
    (getOfflineDocumentMeta documentId
        ((getOfflineDocumentContent documentId .base64 s).2)).1 = none ∧
    (isDocumentOffline documentId
        ((getOfflineDocumentContent documentId .base64 s).2)).1 = false := by
  have hgi : s.faults.getItemFail = false := by rw [h]; rfl
  have hinfo : s.faults.getInfoFail = false := by rw [h]; rfl
  rw [getOfflineDocumentMeta_fst _ _ hgi] at hm
  simp only [offlineList] at hm
  have hred : getOfflineDocumentContent documentId .base64 s =
      (none, (removeOfflineDocument documentId s).2) := by
    simp only [getOfflineDocumentContent, getOfflineDocumentMeta_ok, hgi,
      offlineList, hm, fsGetInfoFile, hinfo, if_false, Bool.false_eq_true,
      hfile, Option.isSome_none]
  have hred1 : (getOfflineDocumentContent documentId .base64 s).1 = none := by
    rw [hred]
  have hred2 : (getOfflineDocumentContent documentId .base64 s).2 =
      (removeOfflineDocument documentId s).2 := by
    rw [hred]
  obtain ⟨_, h2s, h3s, _, _⟩ := removeOfflineDocument_spec documentId s h
  refine ⟨hred1, ?_, ?_⟩
  · rw [hred2, getOfflineDocumentMeta_fst _ _ (by rw [h3s, h]; rfl)]
    simp only [offlineList, h2s, Option.getD_some]
    exact find?_filter_ne _ _
  · rw [hred2, isDocumentOffline_fst _ _ (by rw [h3s, h]; rfl)]
    simp only [offlineList, h2s, Option.getD_some]
    exact any_filter_ne _ _

/-- Witness for C4 on the concrete stale state. -/
theorem c4_witness :
    (getOfflineDocumentContent "3" .base64 staleState).1 = none ∧
    (getOfflineDocumentMeta "3"
        ((getOfflineDocumentContent "3" .base64 staleState).2)).1 = none ∧
    (isDocumentOffline "3"
        ((getOfflineDocumentContent "3" .base64 staleState).2)).1 = false :=
  c4_self_healing staleState "3" staleMeta rfl rfl rfl

theorem find?_set_findIdx (l : List DocumentAnnotations)
    (p : DocumentAnnotations → Bool) (x : DocumentAnnotations)
    (hx : p x = true) :
    l.findIdx p < l.length → (l.set (l.findIdx p) x).find? p = some x := by
  induction l with
  | nil => intro hlt; simp at hlt
  | cons a t ih =>
    intro hlt
    cases ha : p a with
    | true =>
      simp only [List.findIdx_cons, ha, cond_true, List.set]
      exact List.find?_cons_of_pos _ hx
    | false =>
      simp only [List.findIdx_cons, ha, cond_false, List.set,
        List.length_cons] at hlt ⊢
      rw [List.find?_cons_of_neg _ (by simp [ha])]
      exact ih (by omega)

theorem find?_append_single_of_none (l : List DocumentAnnotations)
    (p : DocumentAnnotations → Bool) (x : DocumentAnnotations)
    (hx : p x = true) (hl : l.find? p = none) :
    (l ++ [x]).find? p = some x := by
  rw [List.find?_append, hl, Option.none_or]
  exact List.find?_cons_of_pos _ hx

theorem find?_upsert (documentId : String) (annots : List Annot) (t : Nat)
    (l : List DocumentAnnotations) :
    (upsertAnns documentId annots t l).find?
      (fun d => d.documentId = documentId) =
      some { documentId := documentId, annotations := annots
             updatedAt := t } := by
  unfold upsertAnns
  by_cases hlt : l.findIdx (fun d => d.documentId = documentId) < l.length
  · rw [if_pos hlt]
    exact find?_set_findIdx l _ _ (by simp) hlt
  · rw [if_neg hlt]
    refine find?_append_single_of_none l _ _ (by simp) ?_
    rw [List.find?_eq_none]
    intro y hy hpy
    exact hlt (List.findIdx_lt_length.mpr ⟨y, hy, hpy⟩)

theorem annsOf_upsert (documentId : String) (annots : List Annot) (t : Nat)
    (l : List DocumentAnnotations) :
    annsOf documentId (some (upsertAnns documentId annots t l)) = annots := by
  simp [annsOf, find?_upsert]

/-- Equation for saveAnnotations when both storage calls succeed. -/
theorem saveAnnotations_ok (documentId : String) (annots : List Annot)
    (s : SysState) (hgi : s.faults.getItemFail = false)
    (hsi : s.faults.setItemFail = false) :
    saveAnnotations documentId annots s =
      (true,
       { s with
         annStore := some (upsertAnns documentId annots s.now
           (s.annStore.getD []))
         now := s.now + 1 }) := by
  simp only [saveAnnotations, getAllDocumentAnnotations_ok _ hgi, dateNow,
    kvSetAnn_ok, hsi, upsertAnns]

theorem filter_ne_append_self (L : List Annot) (na : Annot)
    (hL : ∀ x ∈ L, x.id ≠ na.id) :
    (L ++ [na]).filter (fun x => x.id ≠ na.id) = L := by
  rw [List.filter_append]
  have h1 : L.filter (fun x => x.id ≠ na.id) = L :=
    List.filter_eq_self.mpr (fun x hx => by simpa using hL x hx)
  have h2 : ([na] : List Annot).filter (fun x => x.id ≠ na.id) = [] := by simp
  rw [h1, h2, List.append_nil]

/-- Equation for addAnnotation on a fault-free run. -/
theorem addAnnot_ok (documentId : String) (a : AnnotInput) (s : SysState)
    (hgi : s.faults.getItemFail = false)
    (hsi : s.faults.setItemFail = false) :
    addAnnot documentId a s =
      (some (newAnnotOf a s),
       { s with
         annStore := some (upsertAnns documentId
           (annsOf documentId s.annStore ++ [newAnnotOf a s]) (s.now + 2)
           (s.annStore.getD []))
         now := s.now + 3 }) := by
  simp only [addAnnot, getAnnotations_ok, hgi, dateNow, saveAnnotations_ok,
    hsi, newAnnotOf]

/-- C5: addAnnotation followed by removeAnnotation with the returned id
restores getAnnotations to its prior value (fault-free run, generated id
fresh for the document): the remove reports success and the final list
equals the prior list. -/
theorem c5_add_remove_inverse (s : SysState) (documentId : String)
    (a : AnnotInput) (h : s.faults = noFaults)
    (hfresh : ∀ x ∈ annsOf documentId s.annStore,
        x.id ≠ makeAnnotId s.now s.randSuffix) :
    ∀ na s1, addAnnot documentId a s = (some na, s1) →
      (removeAnnot documentId na.id s1).1 = true ∧
      (getAnnotations documentId ((removeAnnot documentId na.id s1).2)).1 =
        (getAnnotations documentId s).1 := by
  have hgi : s.faults.getItemFail = false := by rw [h]; rfl
  have hsi : s.faults.setItemFail = false := by rw [h]; rfl
  intro na s1 heq
  rw [addAnnot_ok documentId a s hgi hsi] at heq
  injection heq with h1 h2
  injection h1 with h1
  subst h1
  have hfa : s1.faults = s.faults := (congrArg SysState.faults h2).symm
  have hgi1 : s1.faults.getItemFail = false := by rw [hfa]; exact hgi
  have hsi1 : s1.faults.setItemFail = false := by rw [hfa]; exact hsi
  have han : s1.annStore = some (upsertAnns documentId
      (annsOf documentId s.annStore ++ [newAnnotOf a s]) (s.now + 2)
      (s.annStore.getD [])) := (congrArg SysState.annStore h2).symm
  have hfilter : (annsOf documentId s.annStore ++ [newAnnotOf a s]).filter
      (fun x => x.id ≠ (newAnnotOf a s).id) = annsOf documentId s.annStore :=
    filter_ne_append_self _ _ hfresh
  have hganns : (getAnnotations documentId s1).1 =
      annsOf documentId s.annStore ++ [newAnnotOf a s] := by
    rw [getAnnotations_ok _ _ hgi1, han]
    exact annsOf_upsert _ _ _ _
  constructor
  · simp only [removeAnnot, hganns, getAnnotations_state, hfilter]
    rw [if_neg (by simp)]
  · simp only [removeAnnot, hganns, getAnnotations_state, hfilter]
    rw [if_neg (by simp)]
    simp only [saveAnnotations_ok documentId (annsOf documentId s.annStore)
        s1 hgi1 hsi1, getAnnotations_ok, hgi1, hgi, hfa, annsOf_upsert]

/-- Witness for C5: the concrete spec scenario, add then remove on an
empty store. -/
theorem c5_witness :
    (removeAnnot "3" "ann_100_k2p9q4r8m"
        ((addAnnot "3" sampleAnnotInput baseState).2)).1 = true ∧
    (getAnnotations "3" ((removeAnnot "3" "ann_100_k2p9q4r8m"
        ((addAnnot "3" sampleAnnotInput baseState).2)).2)).1 =
      (getAnnotations "3" baseState).1 :=
  c5_add_remove_inverse baseState "3" sampleAnnotInput rfl (by decide)
    { id := "ann_100_k2p9q4r8m", type := .note, page := 1, x := 50
      y := 50, color := "#fbbf24"
      content := some "Ver com coordenação", createdAt := 101 }
    ((addAnnot "3" sampleAnnotInput baseState).2) rfl

theorem slotRespects_getD {β : Type} (oldv : β) (slot : Option β) :
    slotRespects oldv (slot.getD oldv) slot := by
  cases slot <;> simp [slotRespects]

theorem patchRespects_applySpread (old : Annot) (p : AnnotPatch) :
    patchRespects old (applySpread old p) p :=
  ⟨slotRespects_getD _ _, slotRespects_getD _ _, slotRespects_getD _ _,
   slotRespects_getD _ _, slotRespects_getD _ _, slotRespects_getD _ _,
   slotRespects_getD _ _, slotRespects_getD _ _, slotRespects_getD _ _,
   slotRespects_getD _ _, slotRespects_getD _ _⟩

/-- C6: updateAnnotation merges only the fields named in the patch into
the matched annotation (every unnamed field of it keeps its prior value,
every other annotation of the document is untouched because the list is
only changed at the matched position), and when no annotation carries
the id it returns false with the state completely unchanged (fault-free
run). -/
theorem c6_update (s : SysState) (documentId annotId : String)
    (p : AnnotPatch) (h : s.faults = noFaults) :
    (∀ i (hi : i < (getAnnotations documentId s).1.length),
      (getAnnotations documentId s).1.findIdx (fun a => a.id = annotId) = i →
      (updateAnnot documentId annotId p s).1 = true ∧
      (getAnnotations documentId
          ((updateAnnot documentId annotId p s).2)).1 =
        (getAnnotations documentId s).1.set i
          (applySpread ((getAnnotations documentId s).1.get ⟨i, hi⟩) p) ∧
      patchRespects ((getAnnotations documentId s).1.get ⟨i, hi⟩)
        (applySpread ((getAnnotations documentId s).1.get ⟨i, hi⟩) p) p) ∧
    ((∀ a ∈ (getAnnotations documentId s).1, a.id ≠ annotId) →
      updateAnnot documentId annotId p s = (false, s)) := by
  have hgi : s.faults.getItemFail = false := by rw [h]; rfl
  have hsi : s.faults.setItemFail = false := by rw [h]; rfl
  constructor
  · intro i hi hfi
    have hup : updateAnnot documentId annotId p s =
        (true,
         { s with
           annStore := some (upsertAnns documentId
             ((getAnnotations documentId s).1.set i
               (applySpread ((getAnnotations documentId s).1.get ⟨i, hi⟩) p))
             s.now (s.annStore.getD []))
           now := s.now + 1 }) := by
      simp only [updateAnnot, hfi, getAnnotations_state]
      rw [dif_pos hi]
      rw [saveAnnotations_ok documentId _ s hgi hsi]
    have hup1 : (updateAnnot documentId annotId p s).1 = true := by rw [hup]
    have hup2 : (updateAnnot documentId annotId p s).2 =
        { s with
          annStore := some (upsertAnns documentId
            ((getAnnotations documentId s).1.set i
              (applySpread ((getAnnotations documentId s).1.get ⟨i, hi⟩) p))
            s.now (s.annStore.getD []))
          now := s.now + 1 } := by rw [hup]
    have hgi2 : ((updateAnnot documentId annotId p s).2).faults.getItemFail
        = false := by rw [hup2]; exact hgi
    have han2 : ((updateAnnot documentId annotId p s).2).annStore =
        some (upsertAnns documentId
          ((getAnnotations documentId s).1.set i
            (applySpread ((getAnnotations documentId s).1.get ⟨i, hi⟩) p))
          s.now (s.annStore.getD [])) := by rw [hup2]
    refine ⟨hup1, ?_, patchRespects_applySpread _ _⟩
    rw [getAnnotations_ok _ _ hgi2, han2]
    exact annsOf_upsert _ _ _ _
  · intro hnone
    have hlt : ¬ ((getAnnotations documentId s).1.findIdx
        (fun a => a.id = annotId) < (getAnnotations documentId s).1.length) := by
      rw [List.findIdx_lt_length]
      rintro ⟨x, hx, hpx⟩
      exact hnone x hx (by simpa using hpx)
    simp only [updateAnnot]
    rw [dif_neg hlt, getAnnotations_state]

/-- Witness for C6: an update of a present id succeeds, an update of an
absent id returns false leaving the state unchanged. -/
theorem c6_witness :
    (updateAnnot "3" "ann_1" samplePatch annState).1 = true ∧
    updateAnnot "3" "zzz" samplePatch annState = (false, annState) :=
  ⟨((c6_update annState "3" "ann_1" samplePatch rfl).1 0 (by decide)
      (by decide)).1,
   (c6_update annState "3" "zzz" samplePatch rfl).2 (by decide)⟩

theorem entriesFor_filter_ne (id : String) (l : List OfflineDocumentMeta) :
    entriesFor id (l.filter (fun d => d.documentId ≠ id)) = [] := by
  unfold entriesFor
  rw [List.filter_eq_nil_iff]
  intro x hx
  rw [List.mem_filter] at hx
  simpa using hx.2

theorem entriesFor_replaced (id : String) (l : List OfflineDocumentMeta)
    (m : OfflineDocumentMeta) (hm : m.documentId = id) :
    entriesFor id ((l.filter (fun d => d.documentId ≠ id)) ++ [m]) = [m] := by
  unfold entriesFor
  rw [List.filter_append]
  have h1 := entriesFor_filter_ne id l
  unfold entriesFor at h1
  rw [h1, List.nil_append]
  simp [hm]

theorem OfflineUniq_nil : OfflineUniq [] := by
  intro id
  simp [entriesFor]

theorem OfflineUniq_filter (l : List OfflineDocumentMeta)
    (q : OfflineDocumentMeta → Bool) (hl : OfflineUniq l) :
    OfflineUniq (l.filter q) := by
  intro id
  refine le_trans (List.Sublist.length_le ?_) (hl id)
  exact List.Sublist.filter _ (List.filter_sublist l)

theorem OfflineUniq_replace (l : List OfflineDocumentMeta)
    (m : OfflineDocumentMeta) (id : String) (hm : m.documentId = id)
    (hl : OfflineUniq l) :
    OfflineUniq ((l.filter (fun d => d.documentId ≠ id)) ++ [m]) := by
  intro id'
  unfold entriesFor
  rw [List.filter_append]
  by_cases hid : id' = id
  · subst hid
    have h1 := entriesFor_filter_ne id' l
    unfold entriesFor at h1
    rw [h1, List.nil_append]
    simp [hm]
  · have hid' : ¬ id = id' := fun hc => hid hc.symm
    have h2 : ([m] : List OfflineDocumentMeta).filter
        (fun d => d.documentId = id') = [] := by
      simp [hm, hid']
    rw [h2, List.append_nil]
    exact OfflineUniq_filter l _ hl id'

/-- The metadata store left by a fault-free getOfflineDocumentContent:
untouched, or filtered by the self-healing removal. -/
theorem getOfflineDocumentContent_offlineDocs (documentId : String)
    (enc : FileEnc) (s : SysState) (h : s.faults = noFaults) :
    (((getOfflineDocumentContent documentId enc s).2)).offlineDocs
        = s.offlineDocs ∨
    (((getOfflineDocumentContent documentId enc s).2)).offlineDocs =
      some ((offlineList s).filter (fun d => d.documentId ≠ documentId)) := by
  have hgi : s.faults.getItemFail = false := by rw [h]; rfl
  have hinfo : s.faults.getInfoFail = false := by rw [h]; rfl
  have hrf : s.faults.readFileFail = false := by rw [h]; rfl
  rcases hfind : (s.offlineDocs.getD []).find?
      (fun d => d.documentId = documentId) with _ | m
  · left
    simp only [getOfflineDocumentContent, getOfflineDocumentMeta_ok, hgi,
      offlineList, hfind]
  · rcases hfl : s.files.find? (fun f => f.1 = m.localPath) with _ | f
    · right
      have hspec := (removeOfflineDocument_spec documentId s h).2.1
      simp only [getOfflineDocumentContent, getOfflineDocumentMeta_ok, hgi,
        offlineList, hfind, fsGetInfoFile, hinfo, if_false,
        Bool.false_eq_true, hfl, Option.isSome_none]
      simpa [offlineList] using hspec
    · left
      simp only [getOfflineDocumentContent, getOfflineDocumentMeta_ok, hgi,
        offlineList, hfind, fsGetInfoFile, hinfo, if_false,
        Bool.false_eq_true, hfl, Option.isSome_some, if_true, fsReadFile,
        hrf]
      by_cases henc : f.2.1 = enc <;> simp [henc]

/-- The metadata store is cleared by fault-free
clearAllOfflineDocuments. -/
theorem clearAllOfflineDocuments_offlineDocs (s : SysState)
    (h : s.faults = noFaults) :
    (((clearAllOfflineDocuments s).2)).offlineDocs = none := by
  obtain ⟨od, an, fl, de, ini, n, rs, fa⟩ := s
  simp only [SysState.faults] at h
  subst h
  unfold clearAllOfflineDocuments offlineInit fsGetInfoDir fsMakeDir
    fsDeleteDir clearAllOfflineDocumentsTail kvRemoveOffline
  cases ini <;> cases de <;> simp [noFaults]

/-- C2: after a second fault-free save of the same documentId the stored
list holds exactly one metadata entry for that id, carrying the savedAt
timestamp of the most recent save (strictly newer than the first), and
the at-most-one-entry-per-documentId invariant is preserved by every
OfflineService operation on a fault-free run. -/
theorem c2_uniqueness :
    (∀ (s : SysState) (d1 d2 : Document) (c1 c2 : String) (t1 t2 : FileEnc),
      s.faults = noFaults → d1.id = d2.id →
      entriesFor d1.id (offlineList ((saveDocumentOffline d1 c1 t1 s).2))
        = [saveMeta d1 s] ∧
      entriesFor d2.id (offlineList ((saveDocumentOffline d2 c2 t2
          ((saveDocumentOffline d1 c1 t1 s).2)).2))
        = [saveMeta d2 ((saveDocumentOffline d1 c1 t1 s).2)] ∧
      (saveMeta d1 s).savedAt
        < (saveMeta d2 ((saveDocumentOffline d1 c1 t1 s).2)).savedAt) ∧
    (∀ s : SysState, s.faults = noFaults → OfflineUniq (offlineList s) →
      OfflineUniq (offlineList ((offlineInit s).2)) ∧
      OfflineUniq (offlineList ((getOfflineDocumentsList s).2)) ∧
      (∀ id, OfflineUniq (offlineList ((isDocumentOffline id s).2))) ∧
      (∀ id, OfflineUniq (offlineList ((getOfflineDocumentMeta id s).2))) ∧
      (∀ d c t, OfflineUniq (offlineList ((saveDocumentOffline d c t s).2))) ∧
      (∀ id enc,
        OfflineUniq (offlineList ((getOfflineDocumentContent id enc s).2))) ∧
      (∀ id, OfflineUniq (offlineList ((removeOfflineDocument id s).2))) ∧
      OfflineUniq (offlineList ((clearAllOfflineDocuments s).2))) := by
  constructor
  · intro s d1 d2 c1 c2 t1 t2 h hd
    have h1 : ((saveDocumentOffline d1 c1 t1 s).2).faults = noFaults := by
      rw [saveDocumentOffline_ok d1 c1 t1 s h]
      exact h
    have hnow1 : ((saveDocumentOffline d1 c1 t1 s).2).now = s.now + 2 := by
      rw [saveDocumentOffline_ok d1 c1 t1 s h]
    have hod1 : ((saveDocumentOffline d1 c1 t1 s).2).offlineDocs =
        some (((offlineList s).filter (fun d => d.documentId ≠ d1.id))
          ++ [saveMeta d1 s]) := by
      rw [saveDocumentOffline_ok d1 c1 t1 s h]
    have hod2 :
        ((saveDocumentOffline d2 c2 t2 ((saveDocumentOffline d1 c1 t1 s).2)).2).offlineDocs =
        some (((offlineList ((saveDocumentOffline d1 c1 t1 s).2)).filter
            (fun d => d.documentId ≠ d2.id))
          ++ [saveMeta d2 ((saveDocumentOffline d1 c1 t1 s).2)]) := by
      rw [saveDocumentOffline_ok d2 c2 t2 _ h1]
    refine ⟨?_, ?_, ?_⟩
    · rw [offlineList, hod1, Option.getD_some]
      exact entriesFor_replaced _ _ _ rfl
    · rw [offlineList, hod2, Option.getD_some]
      exact entriesFor_replaced _ _ _ rfl
    · simp only [saveMeta, hnow1]
      omega
  · intro s h hu
    have hgi : s.faults.getItemFail = false := by rw [h]; rfl
    refine ⟨?_, ?_, ?_, ?_, ?_, ?_, ?_, ?_⟩
    · have hinfo : s.faults.getInfoFail = false := by rw [h]; rfl
      have hmk : s.faults.makeDirFail = false := by rw [h]; rfl
      rw [offlineInit_ok s hinfo hmk]
      exact hu
    · rw [getOfflineDocumentsList_ok s hgi]
      exact hu
    · intro id
      rw [isDocumentOffline_ok id s hgi]
      exact hu
    · intro id
      rw [getOfflineDocumentMeta_ok id s hgi]
      exact hu
    · intro d c t
      have := saveDocumentOffline_ok d c t s h
      rw [offlineList, this, Option.getD_some]
      exact OfflineUniq_replace _ _ _ rfl hu
    · intro id enc
      rcases getOfflineDocumentContent_offlineDocs id enc s h with hc | hc
      · rw [offlineList, hc]
        exact hu
      · rw [offlineList, hc, Option.getD_some]
        exact OfflineUniq_filter _ _ hu
    · intro id
      have := (removeOfflineDocument_spec id s h).2.1
      rw [offlineList, this, Option.getD_some]
      exact OfflineUniq_filter _ _ hu
    · rw [offlineList, clearAllOfflineDocuments_offlineDocs s h]
      exact OfflineUniq_nil

/-- Witness for C2: two concrete saves of the same document leave one
entry with the newer savedAt. -/
theorem c2_witness :
    entriesFor sampleDoc.id
        (offlineList ((saveDocumentOffline sampleDoc "A" .base64
          baseState).2)) = [saveMeta sampleDoc baseState] ∧
    entriesFor sampleDoc.id
        (offlineList ((saveDocumentOffline sampleDoc "B" .base64
          ((saveDocumentOffline sampleDoc "A" .base64 baseState).2)).2)) =
      [saveMeta sampleDoc
        ((saveDocumentOffline sampleDoc "A" .base64 baseState).2)] ∧
    (saveMeta sampleDoc baseState).savedAt
      < (saveMeta sampleDoc
          ((saveDocumentOffline sampleDoc "A" .base64 baseState).2)).savedAt :=
  c2_uniqueness.1 baseState sampleDoc sampleDoc "A" "B" .base64 .base64
    rfl rfl

/-! ## Generic find?/set/findIdx facts for the mock-API lists -/

theorem find?_set_of_neg {α : Type} (l : List α) (p : α → Bool) (j : Nat)
    (x : α) (hj : ∀ h : j < l.length, p (l.get ⟨j, h⟩) = false)
    (hx : p x = false) :
    (l.set j x).find? p = l.find? p := by
  induction l generalizing j with
  | nil => simp
  | cons a t ih =>
    cases j with
    | zero =>
      have ha : p a = false := hj (by simp)
      simp only [List.set]
      rw [List.find?_cons_of_neg _ (by simp [hx]),
        List.find?_cons_of_neg _ (by simp [ha])]
    | succ n =>
      simp only [List.set]
      by_cases ha : p a = true
      · rw [List.find?_cons_of_pos _ ha, List.find?_cons_of_pos _ ha]
      · rw [List.find?_cons_of_neg _ ha, List.find?_cons_of_neg _ ha]
        exact ih n (fun h => hj (Nat.succ_lt_succ h))

theorem findIdx_of_find?_eq_some {α : Type} (l : List α) (p : α → Bool)
    (doc : α) (hfind : l.find? p = some doc) :
    ∃ h : l.findIdx p < l.length, l.get ⟨l.findIdx p, h⟩ = doc := by
  induction l with
  | nil => simp at hfind
  | cons a t ih =>
    cases ha : p a with
    | true =>
      rw [List.find?_cons_of_pos _ ha] at hfind
      obtain rfl := Option.some.inj hfind
      refine ⟨by simp [List.findIdx_cons, ha], ?_⟩
      simp [List.findIdx_cons, ha]
    | false =>
      rw [List.find?_cons_of_neg _ (by simp [ha])] at hfind
      obtain ⟨h, hget⟩ := ih hfind
      have hlt : (a :: t).findIdx p < (a :: t).length := by
        simp only [List.findIdx_cons, ha, cond_false, List.length_cons]
        omega
      refine ⟨hlt, ?_⟩
      simp only [List.findIdx_cons, ha, cond_false, List.get_cons_succ]
      exact hget

theorem find?_set_findIdx_pos {α : Type} (l : List α) (p : α → Bool)
    (x : α) (hx : p x = true) :
    l.findIdx p < l.length → (l.set (l.findIdx p) x).find? p = some x := by
  induction l with
  | nil => intro hlt; simp at hlt
  | cons a t ih =>
    intro hlt
    cases ha : p a with
    | true =>
      simp only [List.findIdx_cons, ha, cond_true, List.set]
      exact List.find?_cons_of_pos _ hx
    | false =>
      simp only [List.findIdx_cons, ha, cond_false, List.set,
        List.length_cons] at hlt ⊢
      rw [List.find?_cons_of_neg _ (by simp [ha])]
      exact ih (by omega)

theorem updateDocumentStatus_state_pos (d' : Nat) (st : AdminStatus)
    (s : ApiState)
    (h : s.uploadedDocuments.findIdx (fun x => x.id = d')
      < s.uploadedDocuments.length) :
    (updateDocumentStatus d' st s).2 =
      { uploadedDocuments := s.uploadedDocuments.set
          (s.uploadedDocuments.findIdx (fun x => x.id = d'))
          { s.uploadedDocuments.get
              ⟨s.uploadedDocuments.findIdx (fun x => x.id = d'), h⟩ with
            status := st.toStatus }
        pendingTimers := s.pendingTimers
        now := s.now + 500 } := by
  simp only [updateDocumentStatus]
  rw [dif_pos h]

theorem updateDocumentStatus_state_neg (d' : Nat) (st : AdminStatus)
    (s : ApiState)
    (h : ¬ (s.uploadedDocuments.findIdx (fun x => x.id = d')
      < s.uploadedDocuments.length)) :
    (updateDocumentStatus d' st s).2 = { s with now := s.now + 500 } := by
  simp only [updateDocumentStatus]
  rw [dif_neg h]

theorem uploadTimerCallback_pos (documentId : Nat)
    (docs : List UploadedDocument)
    (h : docs.findIdx (fun x => x.id = documentId) < docs.length) :
    uploadTimerCallback documentId docs =
      docs.set (docs.findIdx (fun x => x.id = documentId))
        { docs.get ⟨docs.findIdx (fun x => x.id = documentId), h⟩ with
          status := .em_analise } := by
  simp only [uploadTimerCallback]
  rw [dif_pos h]

theorem uploadTimerCallback_neg (documentId : Nat)
    (docs : List UploadedDocument)
    (h : ¬ (docs.findIdx (fun x => x.id = documentId) < docs.length)) :
    uploadTimerCallback documentId docs = docs := by
  simp only [uploadTimerCallback]
  rw [dif_neg h]

theorem idsBounded_applyApiOp (op : ApiOp) (s : ApiState)
    (hb : IdsBounded s) : IdsBounded (applyApiOp op s) := by
  cases op with
  | loginOp m p =>
    intro d hd
    exact le_trans (hb d hd) (Nat.le_add_right _ _)
  | getDocumentsOp c =>
    intro d hd
    exact le_trans (hb d hd) (Nat.le_add_right _ _)
  | getUploadedDocumentsOp =>
    intro d hd
    exact le_trans (hb d hd) (Nat.le_add_right _ _)
  | uploadDocumentOp t c u n z =>
    intro d hd
    have hd' : d = newUploadOf t c u n z s ∨ d ∈ s.uploadedDocuments :=
      List.mem_cons.mp hd
    rcases hd' with rfl | hd'
    · exact Nat.le_refl _
    · exact le_trans (hb d hd') (Nat.le_add_right _ _)
  | updateDocumentStatusOp d' st =>
    intro d hd
    by_cases hc : s.uploadedDocuments.findIdx (fun x => x.id = d')
        < s.uploadedDocuments.length
    · have hnow : (applyApiOp (ApiOp.updateDocumentStatusOp d' st) s).now
          = s.now + 500 := by
        simp only [applyApiOp, updateDocumentStatus_state_pos d' st s hc]
      have hd2 : d ∈ s.uploadedDocuments.set
          (s.uploadedDocuments.findIdx (fun x => x.id = d'))
          { s.uploadedDocuments.get
              ⟨s.uploadedDocuments.findIdx (fun x => x.id = d'), hc⟩ with
            status := st.toStatus } := by
        have he := updateDocumentStatus_state_pos d' st s hc
        simpa only [applyApiOp, he] using hd
      rw [hnow]
      rcases List.mem_or_eq_of_mem_set hd2 with hmem | rfl
      · exact le_trans (hb d hmem) (Nat.le_add_right _ _)
      · exact le_trans (hb (s.uploadedDocuments.get
          ⟨s.uploadedDocuments.findIdx (fun x => x.id = d'), hc⟩)
          (List.get_mem _ _ _)) (Nat.le_add_right _ _)
    · have hnow : (applyApiOp (ApiOp.updateDocumentStatusOp d' st) s).now
          = s.now + 500 := by
        simp only [applyApiOp, updateDocumentStatus_state_neg d' st s hc]
      have hd2 : d ∈ s.uploadedDocuments := by
        have he := updateDocumentStatus_state_neg d' st s hc
        simpa only [applyApiOp, he] using hd
      rw [hnow]
      exact le_trans (hb d hd2) (Nat.le_add_right _ _)
  | fireUploadTimerOp d' =>
    intro d hd
    by_cases hc : s.uploadedDocuments.findIdx (fun x => x.id = d')
        < s.uploadedDocuments.length
    · have hd2 : d ∈ s.uploadedDocuments.set
          (s.uploadedDocuments.findIdx (fun x => x.id = d'))
          { s.uploadedDocuments.get
              ⟨s.uploadedDocuments.findIdx (fun x => x.id = d'), hc⟩ with
            status := .em_analise } := by
        have he := uploadTimerCallback_pos d' s.uploadedDocuments hc
        simpa only [applyApiOp, fireUploadTimer, he] using hd
      rcases List.mem_or_eq_of_mem_set hd2 with hmem | rfl
      · exact hb d hmem
      · exact hb (s.uploadedDocuments.get
          ⟨s.uploadedDocuments.findIdx (fun x => x.id = d'), hc⟩)
          (List.get_mem _ _ _)
    · have hd2 : d ∈ s.uploadedDocuments := by
        have he := uploadTimerCallback_neg d' s.uploadedDocuments hc
        simpa only [applyApiOp, fireUploadTimer, he] using hd
      exact hb d hd2
  | resetOp =>
    intro d hd
    simp [applyApiOp, resetUploadedDocuments] at hd

/-- Any call that does not touch one document's status entry leaves its
record exactly as found. -/
theorem find?_preservedApiOp (op : ApiOp) (s : ApiState) (documentId : Nat)
    (doc : UploadedDocument) (hb : IdsBounded s)
    (hfind : s.uploadedDocuments.find? (fun d => d.id = documentId)
      = some doc)
    (hop : ¬ TouchesDoc documentId op) :
    (applyApiOp op s).uploadedDocuments.find?
      (fun d => d.id = documentId) = some doc := by
  have hdoc_mem : doc ∈ s.uploadedDocuments :=
    List.mem_of_find?_eq_some hfind
  have hdoc_id : doc.id = documentId := by
    simpa using List.find?_some hfind
  have hdoc_le : documentId ≤ s.now := hdoc_id ▸ hb doc hdoc_mem
  cases op with
  | loginOp m p => exact hfind
  | getDocumentsOp c => exact hfind
  | getUploadedDocumentsOp => exact hfind
  | resetOp => exact absurd trivial hop
  | uploadDocumentOp t c u n z =>
    have hcons : (applyApiOp (ApiOp.uploadDocumentOp t c u n z)
        s).uploadedDocuments
        = newUploadOf t c u n z s :: s.uploadedDocuments := rfl
    rw [hcons, List.find?_cons_of_neg _ (by simp [newUploadOf]; omega)]
    exact hfind
  | updateDocumentStatusOp d' st =>
    have hd' : ¬ d' = documentId := hop
    by_cases hc : s.uploadedDocuments.findIdx (fun x => x.id = d')
        < s.uploadedDocuments.length
    · have hdocs : (applyApiOp (ApiOp.updateDocumentStatusOp d' st)
          s).uploadedDocuments
          = s.uploadedDocuments.set
            (s.uploadedDocuments.findIdx (fun x => x.id = d'))
            { s.uploadedDocuments.get
                ⟨s.uploadedDocuments.findIdx (fun x => x.id = d'), hc⟩ with
              status := st.toStatus } := by
        have he := updateDocumentStatus_state_pos d' st s hc
        simp only [applyApiOp, he]
      rw [hdocs, find?_set_of_neg]
      · exact hfind
      · intro hh
        have hidx : (s.uploadedDocuments[s.uploadedDocuments.findIdx
            (fun x => x.id = d')]).id = d' := by
          have := List.findIdx_getElem (w := hh)
          simpa using this
        simp [hidx, hd']
      · have hidx : (s.uploadedDocuments[s.uploadedDocuments.findIdx
            (fun x => x.id = d')]).id = d' := by
          have := List.findIdx_getElem (w := hc)
          simpa using this
        simp [hidx, hd']
    · have hdocs : (applyApiOp (ApiOp.updateDocumentStatusOp d' st)
          s).uploadedDocuments = s.uploadedDocuments := by
        have he := updateDocumentStatus_state_neg d' st s hc
        simp only [applyApiOp, he]
      rw [hdocs]
      exact hfind
  | fireUploadTimerOp d' =>
    have hd' : ¬ d' = documentId := hop
    by_cases hc : s.uploadedDocuments.findIdx (fun x => x.id = d')
        < s.uploadedDocuments.length
    · have hdocs : (applyApiOp (ApiOp.fireUploadTimerOp d')
          s).uploadedDocuments
          = s.uploadedDocuments.set
            (s.uploadedDocuments.findIdx (fun x => x.id = d'))
            { s.uploadedDocuments.get
                ⟨s.uploadedDocuments.findIdx (fun x => x.id = d'), hc⟩ with
              status := .em_analise } := by
        have he := uploadTimerCallback_pos d' s.uploadedDocuments hc
        simp only [applyApiOp, fireUploadTimer, he]
      rw [hdocs, find?_set_of_neg]
      · exact hfind
      · intro hh
        have hidx : (s.uploadedDocuments[s.uploadedDocuments.findIdx
            (fun x => x.id = d')]).id = d' := by
          have := List.findIdx_getElem (w := hh)
          simpa using this
        simp [hidx, hd']
      · have hidx : (s.uploadedDocuments[s.uploadedDocuments.findIdx
            (fun x => x.id = d')]).id = d' := by
          have := List.findIdx_getElem (w := hc)
          simpa using this
        simp [hidx, hd']
    · have hdocs : (applyApiOp (ApiOp.fireUploadTimerOp d')
          s).uploadedDocuments = s.uploadedDocuments := by
        have he := uploadTimerCallback_neg d' s.uploadedDocuments hc
        simp only [applyApiOp, fireUploadTimer, he]
      rw [hdocs]
      exact hfind

theorem find?_preservedApiOps (ops : List ApiOp) (s : ApiState)
    (documentId : Nat) (doc : UploadedDocument) (hb : IdsBounded s)
    (hfind : s.uploadedDocuments.find? (fun d => d.id = documentId)
      = some doc)
    (hops : ∀ op ∈ ops, ¬ TouchesDoc documentId op) :
    (applyApiOps ops s).uploadedDocuments.find?
      (fun d => d.id = documentId) = some doc := by
  induction ops generalizing s with
  | nil => simpa [applyApiOps] using hfind
  | cons op rest ih =>
    exact ih (applyApiOp op s) (idsBounded_applyApiOp op s hb)
      (find?_preservedApiOp op s documentId doc hb hfind
        (hops op (by simp)))
      (fun o ho => hops o (by simp [ho]))

/-- Firing the upload timer flips exactly the status of the found
record to em_analise. -/
theorem fireUploadTimer_find? (s : ApiState) (documentId : Nat)
    (doc : UploadedDocument)
    (hfind : s.uploadedDocuments.find? (fun d => d.id = documentId)
      = some doc) :
    (fireUploadTimer documentId s).uploadedDocuments.find?
        (fun d => d.id = documentId) =
      some { doc with status := .em_analise } := by
  have hdoc_id : doc.id = documentId := by
    simpa using List.find?_some hfind
  obtain ⟨hlt, hget⟩ := findIdx_of_find?_eq_some _ _ _ hfind
  have hdocs : (fireUploadTimer documentId s).uploadedDocuments
      = s.uploadedDocuments.set
        (s.uploadedDocuments.findIdx (fun d => d.id = documentId))
        { s.uploadedDocuments.get
            ⟨s.uploadedDocuments.findIdx (fun d => d.id = documentId),
             hlt⟩ with
          status := .em_analise } := by
    have he := uploadTimerCallback_pos documentId s.uploadedDocuments hlt
    simp only [fireUploadTimer, he]
  rw [hdocs, hget]
  exact find?_set_findIdx_pos _ _ _ (by simp [hdoc_id]) hlt

/-- C9: uploadDocument immediately returns success with a record whose
status is enviado and schedules its status timer for a fixed 5000 ms
later; as long as no call touches that record's status (no admin update
for it, no firing of its timer, no reset), getUploadedDocuments keeps
reporting status enviado and never any other value; when the timer then
fires, getUploadedDocuments shows the same record with status
em_analise. -/
theorem c9_upload_transition (s : ApiState) (title : String)
    (category : UploadCategory) (fileUri fileName : String)
    (fileSize : Option String) (hb : IdsBounded s) :
    (uploadDocument title category fileUri fileName fileSize s).1 =
      (true, some (newUploadOf title category fileUri fileName fileSize s)) ∧
    (newUploadOf title category fileUri fileName fileSize s).status
      = .enviado ∧
    ((uploadDocument title category fileUri fileName fileSize s).2).pendingTimers
      = ((newUploadOf title category fileUri fileName fileSize s).id,
          s.now + 1500 + 5000) :: s.pendingTimers ∧
    (∀ ops, (∀ op ∈ ops,
        ¬ TouchesDoc (newUploadOf title category fileUri fileName fileSize
          s).id op) →
      statusOf (newUploadOf title category fileUri fileName fileSize s).id
          (applyApiOps ops
            ((uploadDocument title category fileUri fileName fileSize s).2))
        = some .enviado ∧
      (getUploadedDocuments (fireUploadTimer
          (newUploadOf title category fileUri fileName fileSize s).id
          (applyApiOps ops
            ((uploadDocument title category fileUri fileName fileSize
              s).2)))).1.2.find?
          (fun d => d.id =
            (newUploadOf title category fileUri fileName fileSize s).id) =
        some { newUploadOf title category fileUri fileName fileSize s with
               status := .em_analise }) := by
  refine ⟨rfl, rfl, rfl, ?_⟩
  intro ops hops
  have hfind0 : ((uploadDocument title category fileUri fileName fileSize
      s).2).uploadedDocuments.find?
      (fun d => d.id =
        (newUploadOf title category fileUri fileName fileSize s).id) =
      some (newUploadOf title category fileUri fileName fileSize s) :=
    List.find?_cons_of_pos _ (by simp [newUploadOf])
  have hb' : IdsBounded
      ((uploadDocument title category fileUri fileName fileSize s).2) := by
    intro d hd
    have hd2 : d = newUploadOf title category fileUri fileName fileSize s
        ∨ d ∈ s.uploadedDocuments := List.mem_cons.mp hd
    rcases hd2 with rfl | hd2
    · exact Nat.le_refl _
    · exact le_trans (hb d hd2) (Nat.le_add_right _ _)
  have hfindops := find?_preservedApiOps ops _ _ _ hb' hfind0 hops
  constructor
  · unfold statusOf
    rw [hfindops]
    rfl
  · have := fireUploadTimer_find? (applyApiOps ops
      ((uploadDocument title category fileUri fileName fileSize s).2)) _ _
      hfindops
    simpa [getUploadedDocuments] using this

/-- Witness for C9: one concrete upload, no intervening call, timer
fires. -/
theorem c9_witness :
    (uploadDocument "Atestado" .atestado "file:///tmp/a.pdf" "a.pdf" none
        apiStart).1 =
      (true, some (newUploadOf "Atestado" .atestado "file:///tmp/a.pdf"
        "a.pdf" none apiStart)) ∧
    statusOf (newUploadOf "Atestado" .atestado "file:///tmp/a.pdf" "a.pdf"
        none apiStart).id
      (applyApiOps []
        ((uploadDocument "Atestado" .atestado "file:///tmp/a.pdf" "a.pdf"
          none apiStart).2)) = some .enviado ∧
    (getUploadedDocuments (fireUploadTimer
        (newUploadOf "Atestado" .atestado "file:///tmp/a.pdf" "a.pdf" none
          apiStart).id
        (applyApiOps []
          ((uploadDocument "Atestado" .atestado "file:///tmp/a.pdf" "a.pdf"
            none apiStart).2)))).1.2.find?
        (fun d => d.id = (newUploadOf "Atestado" .atestado
          "file:///tmp/a.pdf" "a.pdf" none apiStart).id) =
      some { newUploadOf "Atestado" .atestado "file:///tmp/a.pdf" "a.pdf"
             none apiStart with status := .em_analise } := by
  obtain ⟨h1, h2, h3, h4⟩ := c9_upload_transition apiStart "Atestado"
    .atestado "file:///tmp/a.pdf" "a.pdf" none
    (by intro d hd; simp [apiStart] at hd)
  obtain ⟨h5, h6⟩ := h4 [] (by intro op ho; simp at ho)
  exact ⟨h1, h5, h6⟩

end Proesc
